import Mathlib

/-!
Verification development for the wagyu-stake-protocol tier engine.

The repository ships several superseding revisions of the tier utilities.
The file `src/lib/utils/tierUtils.ts` contains two revisions, embedded here
with suffixes `V1` (its first revision, lines 1-270) and `V2` (its second
revision, lines 270-602).  A further revision lives in `src/unnamed/part_004`
(suffix `P4`).  JavaScript numbers are modelled as exact rationals `ℚ`;
`Math.floor`/`Math.ceil`/`Math.round` become `Int.floor`/`Int.ceil` with JS
round-half-up semantics.  Lean's total division returns 0 on a zero
denominator while JavaScript produces ±Infinity/NaN; every theorem whose
inputs could hit a zero denominator therefore carries a hypothesis keeping
the embedding on the domain where the two semantics agree, or is stated at
inputs where the denominator is provably nonzero.
-/

namespace Wagyu

/-- `TierEntity` of `src/lib/types/tier.ts`.  In the source `weight` and
`staked_up_to_percent` are strings that every use site immediately passes
through `parseFloat`; the fields here carry the parsed rational values. -/
structure TierEntity where
  tier : String
  tier_name : String
  weight : ℚ
  staked_up_to_percent : ℚ
deriving DecidableEq, Repr

/-- Model of the JavaScript `undefined` that indexing past the end of a tier
array would produce; theorems carry nonemptiness hypotheses that keep every
access in bounds, so this value is never reached in a proved statement. -/
def defTier : TierEntity := { tier := "", tier_name := "", weight := 0, staked_up_to_percent := 0 }

/-- `FEE_RATE = 0.003` (tierUtils.ts line 7 / 277). -/
def FEE_RATE : ℚ := 3 / 1000

/-- `PRECISION = 100000000` (tierUtils.ts line 8). -/
def PRECISION : ℚ := 100000000

/-- `applyWaxPrecision` (tierUtils.ts lines 50-52):
`Math.round(value * PRECISION) / PRECISION`, with JS `Math.round x = ⌊x + 1/2⌋`. -/
def applyWaxPrecision (value : ℚ) : ℚ :=
  (⌊value * PRECISION + 1 / 2⌋ : ℚ) / PRECISION

/-- Stable insertion of a tier into a list sorted ascending by
`staked_up_to_percent`; an element equal in key to `x` stays in front of `x`
only when it came earlier, matching the stability of `Array.prototype.sort`. -/
def insertTier (x : TierEntity) : List TierEntity → List TierEntity
  | [] => [x]
  | y :: ys =>
      if x.staked_up_to_percent ≤ y.staked_up_to_percent then x :: y :: ys
      else y :: insertTier x ys

/-- `[...tiers].sort((a, b) => parseFloat(a.staked_up_to_percent) -
parseFloat(b.staked_up_to_percent))`: the stable ascending sort used
throughout tierUtils.ts.  A stable ascending sort has a unique result, so
insertion sort is an exact model of the JS engine's sort. -/
def sortTiers : List TierEntity → List TierEntity
  | [] => []
  | x :: xs => insertTier x (sortTiers xs)

/-- JS `Array.prototype.findIndex`: the index of the first match, `-1` when
there is none (Lean's `List.findIdx` returns the length instead). -/
def jsFindIndex (p : TierEntity → Bool) (l : List TierEntity) : ℤ :=
  if l.findIdx p = l.length then -1 else (l.findIdx p : ℤ)

/-- The index selected by the scan loop of the first `determineTier`
(tierUtils.ts lines 102-111): the first tier whose threshold strictly
exceeds the share picks its predecessor (clamped at 0); when no threshold
exceeds the share the last tier is picked. -/
def rankV1 (share : ℚ) (l : List ℚ) : ℕ :=
  if l.findIdx (fun t => decide (share < t)) = l.length then l.length - 1
  else l.findIdx (fun t => decide (share < t)) - 1

/-- The index selected by the scan loop of the second `determineTier`
(tierUtils.ts lines 317-331): the first tier whose threshold is ≥ the share
picks its predecessor (clamped at 0); when none is ≥ the last tier is picked. -/
def rankV2 (share : ℚ) (l : List ℚ) : ℕ :=
  if l.findIdx (fun t => decide (share ≤ t)) = l.length then l.length - 1
  else l.findIdx (fun t => decide (share ≤ t)) - 1

/-- The position (in the sorted tier list) selected by the scan of the first
`determineTier` for a nonzero pool. -/
def determineTierIdxV1 (stakedValue totalValue : ℚ) (tiers : List TierEntity) : ℕ :=
  rankV1 (min (stakedValue / totalValue * 100) 100)
    ((sortTiers tiers).map (·.staked_up_to_percent))

/-- First `determineTier` (tierUtils.ts lines 80-116), on parsed amounts:
zero pool returns `tiers[0]` of the *supplied* list; otherwise the share is
`min (staked/total*100) 100` and the scan of the sorted list picks the tier. -/
def determineTierV1 (stakedValue totalValue : ℚ) (tiers : List TierEntity) : TierEntity :=
  if totalValue = 0 then tiers.headD defTier
  else (sortTiers tiers).getD (determineTierIdxV1 stakedValue totalValue tiers) defTier

/-- `calculateStakedPercent` (tierUtils.ts lines 282-293). -/
def calculateStakedPercent (stakedValue totalValue : ℚ) : ℚ :=
  if totalValue = 0 then 0 else stakedValue / totalValue * 100

/-- The position (in the sorted tier list) selected by the scan of the second
`determineTier`. -/
def determineTierIdxV2 (stakedValue totalValue : ℚ) (tiers : List TierEntity) : ℕ :=
  rankV2 (calculateStakedPercent stakedValue totalValue)
    ((sortTiers tiers).map (·.staked_up_to_percent))

/-- Second `determineTier` (tierUtils.ts lines 298-339), on parsed amounts:
share via `calculateStakedPercent` (unclamped), then the v2 scan. -/
def determineTierV2 (stakedValue totalValue : ℚ) (tiers : List TierEntity) : TierEntity :=
  (sortTiers tiers).getD (determineTierIdxV2 stakedValue totalValue tiers) defTier

/-- Three-tier table used as concrete input: thresholds 1%, 5%, 100%,
ascending, distinct names. -/
def demoTiers : List TierEntity :=
  [ { tier := "supplier", tier_name := "Supplier", weight := 1, staked_up_to_percent := 1 },
    { tier := "merchant", tier_name := "Merchant", weight := 105 / 100, staked_up_to_percent := 5 },
    { tier := "exchange", tier_name := "Exchange", weight := 2, staked_up_to_percent := 100 } ]

/-- Tier table with a duplicated 5% threshold under two distinct names,
exercising the degenerate equal-thresholds case of the progress calculator. -/
def dupTiers : List TierEntity :=
  [ { tier := "alpha", tier_name := "Alpha", weight := 1, staked_up_to_percent := 5 },
    { tier := "beta", tier_name := "Beta", weight := 1, staked_up_to_percent := 5 },
    { tier := "gamma", tier_name := "Gamma", weight := 1, staked_up_to_percent := 100 } ]

/-- A next tier with `staked_up_to_percent = "0.5"`, the example ratio of the
source comment (0.5% = 0.005). -/
def tierHalfPercent : TierEntity :=
  { tier := "half", tier_name := "Half", weight := 1, staked_up_to_percent := 1 / 2 }

/-- A next tier with threshold 99.8%, above the 99.7% fee-adjusted ceiling. -/
def tier998 : TierEntity :=
  { tier := "deep", tier_name := "Deep", weight := 1, staked_up_to_percent := 998 / 10 }

/-- First `calculateSafeUnstakeAmount` (tierUtils.ts lines 150-175), on parsed
amounts.  The `tiers` argument of the source is unused there and omitted. -/
def calculateSafeUnstakeAmountV1 (stakedValue totalValue : ℚ) (currentTier : TierEntity) : ℚ :=
  if totalValue = 0 then 0
  else
    let minRequired := applyWaxPrecision (currentTier.staked_up_to_percent * totalValue / 100)
    applyWaxPrecision (max 0 (stakedValue - minRequired))

/-- Second `calculateSafeUnstakeAmount` (tierUtils.ts lines 345-399), on parsed
amounts; `decimals` is the decimal count parsed from the stake string. -/
def calculateSafeUnstakeAmountV2 (stakedValue : ℚ) (decimals : ℕ) (totalValue : ℚ)
    (tiers : List TierEntity) (currentTier : TierEntity) : ℚ :=
  if totalValue = 0 ∨ stakedValue = 0 then 0
  else
    let sorted := sortTiers tiers
    let currentTierIndex := jsFindIndex (fun t => t.tier == currentTier.tier) sorted
    if currentTierIndex ≤ 0 then max 0 (stakedValue - 1 / 100000000)
    else
      let prevTier := sorted.getD (currentTierIndex.toNat - 1) defTier
      let prevTierThreshold := prevTier.staked_up_to_percent / 100
      let minimumAmount :=
        if prevTierThreshold < 1 then prevTierThreshold * totalValue / (1 - prevTierThreshold)
        else stakedValue
      let safeAmount := max 0 (stakedValue - minimumAmount)
      let withMargin := safeAmount * (95 / 100)
      let multiplier : ℚ := 10 ^ decimals
      (⌊withMargin * multiplier⌋ : ℚ) / multiplier

/-- `calculateAmountForNextTier` (tierUtils.ts lines 405-437), on parsed
amounts.  The `currentTier` argument is unused in the source as well. -/
def calculateAmountForNextTierV2 (currentStake poolTotal : ℚ) (nextTier : TierEntity)
    (decimals : ℕ) : ℚ :=
  let nextThreshold := nextTier.staked_up_to_percent / 100
  let amountForNextTier := (nextThreshold * poolTotal - currentStake) / (1 - nextThreshold)
  let withFee := if amountForNextTier > 0 then amountForNextTier / (1 - FEE_RATE) else 0
  let withBuffer := withFee * (101 / 100)
  let multiplier : ℚ := 10 ^ decimals
  (⌈withBuffer * multiplier⌉ : ℚ) / multiplier

/-- `calculateAmountForNextTier` of `src/unnamed/part_004` (lines 156-217):
it targets the *current* tier's upper threshold plus a `0.00001` margin
instead of the next tier's threshold; fee and 1% buffer as in V2. -/
def calculateAmountForNextTierP4 (currentStake poolTotal : ℚ) (currentTier : TierEntity)
    (decimals : ℕ) : ℚ :=
  let targetThreshold := currentTier.staked_up_to_percent / 100 + 1 / 100000
  let amountNeeded := (targetThreshold * poolTotal - currentStake) / (1 - targetThreshold)
  let withFee := if amountNeeded > 0 then amountNeeded / (1 - FEE_RATE) else 0
  let withBuffer := withFee * (101 / 100)
  let multiplier : ℚ := 10 ^ decimals
  (⌈withBuffer * multiplier⌉ : ℚ) / multiplier

/-- Modelled from the spec (§4.5), for the refinement comparison of C1: the
gross deposit `X = (t * pool - stake) / ((1 - feeRate) - t)` rounded up
(ceiling) to the decimal precision. -/
def specAmountForNextTier (stake pool t feeRate : ℚ) (decimals : ℕ) : ℚ :=
  let X := (t * pool - stake) / ((1 - feeRate) - t)
  let multiplier : ℚ := 10 ^ decimals
  (⌈X * multiplier⌉ : ℚ) / multiplier

/-- Modelled from the spec (§4.6), for the refinement comparison of C2: solve
`(stake - X) / (pool - X) = b` for `X = (stake - b * pool) / (1 - b)`, floor to
the decimal precision, clamp to `[0, stake]`. -/
def specSafeUnstakeAmount (stake pool b : ℚ) (decimals : ℕ) : ℚ :=
  let X := (stake - b * pool) / (1 - b)
  let multiplier : ℚ := 10 ^ decimals
  min (max 0 ((⌊X * multiplier⌋ : ℚ) / multiplier)) stake

/-- The progress computation of the first `calculateTierProgress`
(tierUtils.ts lines 239-254): the raw linear interpolation, then
`Math.min(Math.max(0, progress), 100)`.  (In JS a zero range makes the raw
value ±Infinity, clamped to 0 or 100, or NaN when the numerator is also
zero; in ℚ a zero range makes the raw value 0.  The NaN corner is
unreachable for tier lists with pairwise-distinct names.) -/
def progressTowardV1 (stakedPercent currentThreshold : ℚ) (nextThreshold : Option ℚ) : ℚ :=
  let progress :=
    match nextThreshold with
    | some nt => (stakedPercent - currentThreshold) / (nt - currentThreshold) * 100
    | none => 100
  min (max 0 progress) 100

/-- The progress computation of the second `calculateTierProgress`
(tierUtils.ts lines 489-499): a guarded range (`rangeSize > 0 ? … : 100`),
then clamping. -/
def progressTowardV2 (stakedPercent currentThreshold : ℚ) (nextThreshold : Option ℚ) : ℚ :=
  match nextThreshold with
  | some nt =>
      let rangeSize := nt - currentThreshold
      let progress :=
        if rangeSize > 0 then (stakedPercent - currentThreshold) / rangeSize * 100 else 100
      min 100 (max 0 progress)
  | none => 100

/-- Output record of the first `calculateTierProgress` (tierUtils.ts lines
250-265).  The fields `totalStaked`, `stakedAmount`, `symbol` and `feeRate`
echo inputs and constants verbatim and are omitted. -/
structure TierProgressV1 where
  currentTier : TierEntity
  nextTier : Option TierEntity
  prevTier : Option TierEntity
  progress : ℚ
  requiredForCurrent : ℚ
  currentStakedAmount : ℚ
  rawAmountForNext : Option ℚ
  totalAmountForNext : Option ℚ
  additionalAmountNeeded : Option ℚ
  feeAmount : ℚ
deriving DecidableEq, Repr

/-- The `(rawAmountForNext, totalAmountForNext, additionalAmountNeeded,
feeAmount)` block of the first `calculateTierProgress` (lines 210-233). -/
def amountsV1 (stakedValue totalValue : ℚ) (nextTier : Option TierEntity) :
    Option ℚ × Option ℚ × Option ℚ × Option ℚ :=
  match nextTier with
  | none => (none, none, none, none)
  | some nt =>
      let rawAmountForNext := applyWaxPrecision (nt.staked_up_to_percent * totalValue / 100)
      if stakedValue < rawAmountForNext then
        let baseAmountNeeded := rawAmountForNext - stakedValue
        let feeAmount := applyWaxPrecision (baseAmountNeeded * FEE_RATE / (1 - FEE_RATE))
        (some rawAmountForNext,
         some (applyWaxPrecision (rawAmountForNext + feeAmount)),
         some (applyWaxPrecision (baseAmountNeeded + feeAmount)),
         some feeAmount)
      else (some rawAmountForNext, some rawAmountForNext, some 0, none)

/-- First `calculateTierProgress` (tierUtils.ts lines 178-270), on parsed
amounts.  The `isNaN` guards are vacuous after `parseTokenString` (its
`parseFloat(x) || 0` never yields NaN), leaving the `totalValue === 0` guard. -/
def calculateTierProgressV1 (stakedValue totalValue : ℚ) (tiers : List TierEntity) :
    Option TierProgressV1 :=
  if totalValue = 0 then none
  else
    let stakedPercent := min (stakedValue / totalValue * 100) 100
    let currentTier := determineTierV1 stakedValue totalValue tiers
    let sorted := sortTiers tiers
    let currentTierIndex := jsFindIndex (fun t => t.tier == currentTier.tier) sorted
    let nextTier :=
      if currentTierIndex < (sorted.length : ℤ) - 1 then
        some (sorted.getD (currentTierIndex + 1).toNat defTier)
      else none
    let prevTier :=
      if currentTierIndex > 0 then some (sorted.getD (currentTierIndex - 1).toNat defTier)
      else none
    let amounts := amountsV1 stakedValue totalValue nextTier
    let requiredForCurrent :=
      applyWaxPrecision (currentTier.staked_up_to_percent * totalValue / 100)
    some
      { currentTier := currentTier
        nextTier := nextTier
        prevTier := prevTier
        progress := progressTowardV1 stakedPercent currentTier.staked_up_to_percent
          (nextTier.map (·.staked_up_to_percent))
        requiredForCurrent := requiredForCurrent
        currentStakedAmount := stakedValue
        rawAmountForNext := amounts.1
        totalAmountForNext := amounts.2.1
        additionalAmountNeeded := amounts.2.2.1
        feeAmount := (amounts.2.2.2).getD 0 }

/-- Output record of the second `calculateTierProgress` (tierUtils.ts lines
527-541).  `requiredForCurrent` is hardwired to 0 there; echo fields omitted
as in `TierProgressV1`. -/
structure TierProgressV2 where
  currentTier : TierEntity
  nextTier : Option TierEntity
  prevTier : Option TierEntity
  progress : ℚ
  currentStakedAmount : ℚ
  totalAmountForNext : Option ℚ
  additionalAmountNeeded : Option ℚ
  weight : ℚ
  safeUnstakeAmount : ℚ
deriving DecidableEq, Repr

/-- Second `calculateTierProgress` (tierUtils.ts lines 442-546), on parsed
amounts; `decimals` is the decimal count parsed from the stake string. -/
def calculateTierProgressV2 (stakedValue : ℚ) (decimals : ℕ) (totalValue : ℚ)
    (tiers : List TierEntity) : Option TierProgressV2 :=
  if totalValue = 0 then none
  else
    let stakedPercent := stakedValue / totalValue * 100
    let currentTier := determineTierV2 stakedValue totalValue tiers
    let sorted := sortTiers tiers
    let currentTierIndex := jsFindIndex (fun t => t.tier == currentTier.tier) sorted
    if currentTierIndex = -1 then none
    else
      let nextTier :=
        if currentTierIndex + 1 < (sorted.length : ℤ) then
          some (sorted.getD (currentTierIndex + 1).toNat defTier)
        else none
      let prevTier :=
        if currentTierIndex - 1 ≥ 0 then
          some (sorted.getD (currentTierIndex - 1).toNat defTier)
        else none
      let additionalAmountNeeded :=
        nextTier.map (fun nt => calculateAmountForNextTierV2 stakedValue totalValue nt decimals)
      some
        { currentTier := currentTier
          nextTier := nextTier
          prevTier := prevTier
          progress := progressTowardV2 stakedPercent currentTier.staked_up_to_percent
            (nextTier.map (·.staked_up_to_percent))
          currentStakedAmount := stakedValue
          totalAmountForNext := additionalAmountNeeded.map (fun a => stakedValue + a)
          additionalAmountNeeded := additionalAmountNeeded
          weight := currentTier.weight
          safeUnstakeAmount :=
            calculateSafeUnstakeAmountV2 stakedValue decimals totalValue tiers currentTier }

/-- The record `calculateTierProgressV1 1 100 demoTiers` evaluates to. -/
def recV1demo : TierProgressV1 :=
  { currentTier := demoTiers.getD 0 defTier
    nextTier := some (demoTiers.getD 1 defTier)
    prevTier := none
    progress := 0
    requiredForCurrent := 1
    currentStakedAmount := 1
    rawAmountForNext := some 5
    totalAmountForNext := some (501203611 / 100000000)
    additionalAmountNeeded := some (401203611 / 100000000)
    feeAmount := 1203611 / 100000000 }

/-- The record `calculateTierProgressV2 1 8 100 demoTiers` evaluates to. -/
def recV2demo : TierProgressV2 :=
  { currentTier := demoTiers.getD 0 defTier
    nextTier := some (demoTiers.getD 1 defTier)
    prevTier := none
    progress := 0
    currentStakedAmount := 1
    totalAmountForNext := some (526542787 / 100000000)
    additionalAmountNeeded := some (426542787 / 100000000)
    weight := 1
    safeUnstakeAmount := 99999999 / 100000000 }

/-- A JavaScript number as produced by `parseFloat`: NaN, ±Infinity, or a
finite value (finite doubles are modelled as exact rationals). -/
inductive JSNum where
  | nan : JSNum
  | inf : JSNum
  | negInf : JSNum
  | num : ℚ → JSNum
deriving DecidableEq, Repr

/-- JS whitespace accepted by `parseFloat` and `trim` (the common subset;
exotic Unicode spaces do not occur in ledger balance strings). -/
def isWsChar (c : Char) : Bool :=
  c = ' ' || c = '\t' || c = '\n' || c = '\r' || c = '\x0b' || c = '\x0c'

/-- Value of a digit string, most significant first. -/
def digitsToNat (ds : List Char) : ℕ :=
  ds.foldl (fun acc c => 10 * acc + (c.toNat - '0'.toNat)) 0

/-- An optionally signed digit run, 0 if no digit follows (JS `parseFloat`
ignores a trailing exponent marker without digits). -/
def parseSignedDigits (cs : List Char) : ℤ :=
  match cs with
  | '+' :: rest =>
      if rest.takeWhile Char.isDigit = [] then 0 else (digitsToNat (rest.takeWhile Char.isDigit) : ℤ)
  | '-' :: rest =>
      if rest.takeWhile Char.isDigit = [] then 0 else -(digitsToNat (rest.takeWhile Char.isDigit) : ℤ)
  | _ => if cs.takeWhile Char.isDigit = [] then 0 else (digitsToNat (cs.takeWhile Char.isDigit) : ℤ)

/-- The exponent part of a float literal, 0 when absent or invalid. -/
def parseExpPart (cs : List Char) : ℤ :=
  match cs with
  | 'e' :: rest => parseSignedDigits rest
  | 'E' :: rest => parseSignedDigits rest
  | _ => 0

/-- The unsigned tail of JS `parseFloat`: `Infinity`, or digits, an optional
dot with more digits, and an optional exponent; NaN when no digit occurs. -/
def parseFloatUnsigned (cs : List Char) (negative : Bool) : JSNum :=
  if cs.take 8 = "Infinity".toList then (if negative then JSNum.negInf else JSNum.inf)
  else
    let d1 := cs.takeWhile Char.isDigit
    let r1 := cs.dropWhile Char.isDigit
    let d2 :=
      match r1 with
      | '.' :: rest => rest.takeWhile Char.isDigit
      | _ => []
    let r2 :=
      match r1 with
      | '.' :: rest => rest.dropWhile Char.isDigit
      | _ => r1
    if d1 = [] ∧ d2 = [] then JSNum.nan
    else
      let mantissa : ℚ := (digitsToNat (d1 ++ d2) : ℚ) / 10 ^ d2.length
      let value := mantissa * (10 : ℚ) ^ parseExpPart r2
      JSNum.num (if negative then -value else value)

/-- JS `parseFloat`: skip leading whitespace, optional sign, longest valid
decimal-literal (or `Infinity`) prefix; NaN when none. -/
def parseFloatJS (s : String) : JSNum :=
  match s.toList.dropWhile isWsChar with
  | '+' :: rest => parseFloatUnsigned rest false
  | '-' :: rest => parseFloatUnsigned rest true
  | cs => parseFloatUnsigned cs false

/-- Result record of `parseTokenString` (`src/lib/utils/tokenUtils.ts`).
The `formatted` echo field (`amount.toFixed(decimals) + symbol`) is
presentation-only and omitted. -/
structure ParsedToken where
  amount : JSNum
  symbol : String
  decimals : ℕ
deriving DecidableEq, Repr

/-- The record returned for undefined or empty input (tokenUtils.ts 2-9). -/
def defaultParsed : ParsedToken := { amount := JSNum.num 0, symbol := "WAX", decimals := 8 }

/-- JS `x || 0` on a number: NaN (and ±0) fall through to 0, everything else
passes, including ±Infinity which is truthy. -/
def jsOrZero : JSNum → JSNum
  | JSNum.nan => JSNum.num 0
  | JSNum.num q => JSNum.num q
  | JSNum.inf => JSNum.inf
  | JSNum.negInf => JSNum.negInf

/-- JS `String.prototype.trim`: drop whitespace from both ends. -/
def trimChars (cs : List Char) : List Char :=
  ((cs.dropWhile isWsChar).reverse.dropWhile isWsChar).reverse

/-- JS `String.prototype.split` with a one-character separator: every
occurrence splits, adjacent separators produce empty fields, and the empty
string yields `[""]`. -/
def splitOnChar (sep : Char) : List Char → List (List Char)
  | [] => [[]]
  | c :: rest =>
      if c = sep then [] :: splitOnChar sep rest
      else
        match splitOnChar sep rest with
        | [] => [[c]]
        | t :: ts => (c :: t) :: ts

/-- `tokenString.trim().split(' ')` of tokenUtils.ts line 11. -/
def jsTokens (s : String) : List String :=
  (splitOnChar ' ' (trimChars s.toList)).map (fun cs => String.mk cs)

/-- `parts[0] || '0'` of tokenUtils.ts line 12: first space-separated token
of the trimmed input, `"0"` when absent or empty. -/
def jsFirstToken (s : String) : String :=
  match (jsTokens s).head? with
  | some a => if a = "" then "0" else a
  | none => "0"

/-- `parts[1] || 'WAX'` of tokenUtils.ts line 13. -/
def jsSymbolToken (s : String) : String :=
  match (jsTokens s)[1]? with
  | some b => if b = "" then "WAX" else b
  | none => "WAX"

/-- Lines 17-23 of tokenUtils.ts: if the amount token contains a dot, the
decimal count is the length of `amountStr.split('.')[1]`, else 8. -/
def jsDecimalsOf (amountStr : String) : ℕ :=
  if amountStr.toList.contains '.' then ((splitOnChar '.' amountStr.toList).getD 1 []).length
  else 8

/-- `parseTokenString` (tokenUtils.ts lines 1-39).  `none` models the
`undefined` argument; the empty string is the only falsy string. -/
def parseTokenString : Option String → ParsedToken
  | none => defaultParsed
  | some s =>
      if s = "" then defaultParsed
      else
        let amountStr := jsFirstToken s
        { amount := jsOrZero (parseFloatJS amountStr)
          symbol := jsSymbolToken s
          decimals := jsDecimalsOf amountStr }

/-! ### Auxiliary lemmas on the scan, the sort and the rounding -/

theorem findIdx_mono {α : Type} {p q : α → Bool} (h : ∀ a, q a = true → p a = true) :
    ∀ l : List α, l.findIdx p ≤ l.findIdx q := by
  intro l
  induction l with
  | nil => simp
  | cons a t ih =>
      by_cases hq : q a = true
      · simp [List.findIdx_cons, h a hq, hq]
      · by_cases hp : p a = true
        · simp [List.findIdx_cons, hp]
        · simp only [Bool.not_eq_true] at hp hq
          simp only [List.findIdx_cons, hp, hq, cond_false]
          omega

theorem findIdx_eq_length_of {α : Type} {p : α → Bool} :
    ∀ l : List α, (∀ a ∈ l, p a = false) → l.findIdx p = l.length := by
  intro l
  induction l with
  | nil => simp
  | cons a t ih =>
      intro h
      have ha := h a (List.mem_cons_self a t)
      simp only [List.findIdx_cons, ha, cond_false, List.length_cons]
      have := ih (fun b hb => h b (List.mem_cons_of_mem a hb))
      omega

theorem findIdx_eq_of {α : Type} (p : α → Bool) (d : α) :
    ∀ (l : List α) (k : ℕ), k < l.length →
      (∀ i, i < k → p (l.getD i d) = false) → p (l.getD k d) = true →
      l.findIdx p = k := by
  intro l
  induction l with
  | nil => intro k hk; simp at hk
  | cons a t ih =>
      intro k hk hbefore hat
      cases k with
      | zero =>
          simp only [List.getD_cons_zero] at hat
          simp [List.findIdx_cons, hat]
      | succ k =>
          have ha : p a = false := by
            have := hbefore 0 (Nat.succ_pos _)
            simpa using this
          simp only [List.findIdx_cons, ha, cond_false]
          have hk' : k < t.length := by simpa [List.length_cons] using hk
          have hb' : ∀ i, i < k → p (t.getD i d) = false := by
            intro i hi
            have := hbefore (i + 1) (by omega)
            simpa using this
          have ha' : p (t.getD k d) = true := by simpa using hat
          rw [ih k hk' hb' ha']

theorem length_insertTier (x : TierEntity) :
    ∀ l : List TierEntity, (insertTier x l).length = l.length + 1 := by
  intro l
  induction l with
  | nil => rfl
  | cons y ys ih =>
      by_cases h : x.staked_up_to_percent ≤ y.staked_up_to_percent <;>
        simp [insertTier, h, ih]

theorem length_sortTiers : ∀ l : List TierEntity, (sortTiers l).length = l.length := by
  intro l
  induction l with
  | nil => rfl
  | cons x xs ih => simp [sortTiers, length_insertTier, ih]

theorem mem_insertTier {u x : TierEntity} :
    ∀ l : List TierEntity, u ∈ insertTier x l ↔ u = x ∨ u ∈ l := by
  intro l
  induction l with
  | nil => simp [insertTier]
  | cons y ys ih =>
      by_cases h : x.staked_up_to_percent ≤ y.staked_up_to_percent
      · simp [insertTier, h]
      · simp [insertTier, h, ih]
        tauto

theorem mem_sortTiers {u : TierEntity} :
    ∀ l : List TierEntity, u ∈ sortTiers l ↔ u ∈ l := by
  intro l
  induction l with
  | nil => simp [sortTiers]
  | cons x xs ih =>
      simp [sortTiers, mem_insertTier, ih]

theorem sortTiers_eq_self :
    ∀ l : List TierEntity,
      List.Chain' (fun a b => a.staked_up_to_percent ≤ b.staked_up_to_percent) l →
      sortTiers l = l := by
  intro l
  induction l with
  | nil => intro _; rfl
  | cons x xs ih =>
      intro h
      have htail : List.Chain'
          (fun a b => a.staked_up_to_percent ≤ b.staked_up_to_percent) xs :=
        h.tail
      rw [sortTiers, ih htail]
      cases xs with
      | nil => rfl
      | cons y ys =>
          have hxy : x.staked_up_to_percent ≤ y.staked_up_to_percent :=
            List.chain'_cons.mp h |>.1
          simp [insertTier, hxy]

theorem ceil_div_ge {w m : ℚ} (hm : 0 < m) : w ≤ (⌈w * m⌉ : ℚ) / m := by
  rw [le_div_iff hm]
  exact Int.le_ceil _

theorem floor_div_le {w m : ℚ} (hm : 0 < m) : (⌊w * m⌋ : ℚ) / m ≤ w := by
  rw [div_le_iff hm]
  exact Int.floor_le _

theorem floor_div_nonneg {w m : ℚ} (hm : 0 < m) (hw : 0 ≤ w) : 0 ≤ (⌊w * m⌋ : ℚ) / m := by
  apply div_nonneg _ hm.le
  have : (0 : ℤ) ≤ ⌊w * m⌋ := Int.floor_nonneg.mpr (mul_nonneg hw hm.le)
  exact_mod_cast this

theorem ceil_div_least {w y m : ℚ} (hm : 0 < m) (z : ℤ) (hy : y = (z : ℚ) / m)
    (hwy : w ≤ y) : (⌈w * m⌉ : ℚ) / m ≤ y := by
  have h1 : w * m ≤ (z : ℚ) := by
    rw [hy, le_div_iff hm] at hwy
    exact hwy
  have h2 : ⌈w * m⌉ ≤ z := Int.ceil_le.mpr h1
  rw [hy]
  exact (div_le_div_right hm).mpr (by exact_mod_cast h2)

theorem ceil_eq_neg_floor_neg (a : ℚ) : (⌈a⌉ : ℤ) = -⌊-a⌋ := by
  rw [Int.floor_neg]
  exact (neg_neg _).symm

theorem ceil_div_nonneg {w m : ℚ} (hm : 0 < m) (hw : 0 ≤ w) : 0 ≤ (⌈w * m⌉ : ℚ) / m := by
  apply div_nonneg _ hm.le
  have h : (0 : ℤ) ≤ ⌈w * m⌉ := Int.ceil_nonneg (mul_nonneg hw hm.le)
  exact_mod_cast h

theorem rankV1_mono {a b : ℚ} (hab : a ≤ b) (l : List ℚ) : rankV1 a l ≤ rankV1 b l := by
  have hf : l.findIdx (fun t => decide (a < t)) ≤ l.findIdx (fun t => decide (b < t)) := by
    apply findIdx_mono
    intro t ht
    exact decide_eq_true (lt_of_le_of_lt hab (of_decide_eq_true ht))
  have ha : l.findIdx (fun t => decide (a < t)) ≤ l.length := List.findIdx_le_length _
  have hb : l.findIdx (fun t => decide (b < t)) ≤ l.length := List.findIdx_le_length _
  unfold rankV1
  split_ifs <;> omega

theorem rankV2_mono {a b : ℚ} (hab : a ≤ b) (l : List ℚ) : rankV2 a l ≤ rankV2 b l := by
  have hf : l.findIdx (fun t => decide (a ≤ t)) ≤ l.findIdx (fun t => decide (b ≤ t)) := by
    apply findIdx_mono
    intro t ht
    exact decide_eq_true (le_trans hab (of_decide_eq_true ht))
  have ha : l.findIdx (fun t => decide (a ≤ t)) ≤ l.length := List.findIdx_le_length _
  have hb : l.findIdx (fun t => decide (b ≤ t)) ≤ l.length := List.findIdx_le_length _
  unfold rankV2
  split_ifs <;> omega

theorem chain_head_min_pct :
    ∀ (x : TierEntity) (l : List TierEntity),
      List.Chain' (fun a b => a.staked_up_to_percent ≤ b.staked_up_to_percent) (x :: l) →
      ∀ u ∈ x :: l, x.staked_up_to_percent ≤ u.staked_up_to_percent := by
  intro x l
  induction l generalizing x with
  | nil =>
      intro _ u hu
      have : u = x := by simpa using hu
      rw [this]
  | cons y ys ih =>
      intro h u hu
      have hxy : x.staked_up_to_percent ≤ y.staked_up_to_percent :=
        (List.chain'_cons.mp h).1
      rcases List.mem_cons.mp hu with rfl | hu2
      · exact le_refl _
      · exact le_trans hxy (ih y (List.chain'_cons.mp h).2 u hu2)

theorem amountForNextTierV2_nonneg (s P : ℚ) (nt : TierEntity) (d : ℕ) :
    0 ≤ calculateAmountForNextTierV2 s P nt d := by
  simp only [calculateAmountForNextTierV2]
  apply ceil_div_nonneg (by positivity)
  apply mul_nonneg _ (by norm_num)
  split_ifs with h
  · apply div_nonneg h.le
    norm_num [FEE_RATE]
  · exact le_refl 0

theorem amountForNextTierV2_zero (s P : ℚ) (nt : TierEntity) (d : ℕ)
    (h1 : nt.staked_up_to_percent / 100 < 1)
    (h2 : nt.staked_up_to_percent / 100 * P ≤ s) :
    calculateAmountForNextTierV2 s P nt d = 0 := by
  simp only [calculateAmountForNextTierV2]
  have hraw : (nt.staked_up_to_percent / 100 * P - s) / (1 - nt.staked_up_to_percent / 100) ≤ 0 :=
    div_nonpos_of_nonpos_of_nonneg (by linarith) (by linarith)
  rw [if_neg (not_lt.mpr hraw)]
  norm_num

/-! ### Claims -/

/-- C7: for every tier list and fixed pool total, andfor stake amounts
`s1 ≤ s2`, the index in the ascending sorted tier list selected by
`determineTier` (both revisions) for `s2` is at least the one selected for
`s1`; the final conjuncts record that for a nonzero pool the resolvers
return exactly the tier at that index of the sorted list. -/
theorem claim_C7_monotonicity (tiers : List TierEntity) (P s1 s2 : ℚ)
    (hP : 0 < P) (hs : s1 ≤ s2) :
    determineTierIdxV1 s1 P tiers ≤ determineTierIdxV1 s2 P tiers ∧
    determineTierIdxV2 s1 P tiers ≤ determineTierIdxV2 s2 P tiers ∧
    determineTierV1 s1 P tiers =
      (sortTiers tiers).getD (determineTierIdxV1 s1 P tiers) defTier ∧
    determineTierV2 s1 P tiers =
      (sortTiers tiers).getD (determineTierIdxV2 s1 P tiers) defTier := by
  have hdiv : s1 / P ≤ s2 / P := by gcongr
  have hshare1 : min (s1 / P * 100) 100 ≤ min (s2 / P * 100) 100 := by
    apply min_le_min _ (le_refl _)
    nlinarith
  have hshare2 : calculateStakedPercent s1 P ≤ calculateStakedPercent s2 P := by
    unfold calculateStakedPercent
    rw [if_neg hP.ne', if_neg hP.ne']
    nlinarith
  refine ⟨rankV1_mono hshare1 _, rankV2_mono hshare2 _, ?_, rfl⟩
  unfold determineTierV1
  rw [if_neg hP.ne']

/-- Witness for C7 at `demoTiers`, pool 100, stakes 3 and 60. -/
theorem claim_C7_witness :
    determineTierIdxV1 3 100 demoTiers ≤ determineTierIdxV1 60 100 demoTiers ∧
    determineTierIdxV2 3 100 demoTiers ≤ determineTierIdxV2 60 100 demoTiers ∧
    determineTierV1 3 100 demoTiers =
      (sortTiers demoTiers).getD (determineTierIdxV1 3 100 demoTiers) defTier ∧
    determineTierV2 3 100 demoTiers =
      (sortTiers demoTiers).getD (determineTierIdxV2 3 100 demoTiers) defTier :=
  claim_C7_monotonicity demoTiers 100 3 60 (by norm_num) (by norm_num)

/-- C8: for every sorted nonempty tier list and a pool total that parses to
zero, the first `determineTier` returns the head of the supplied list — the
lowest tier, as the second conjunct records — and both revisions of
`calculateTierProgress` return `none` instead of a partial record. -/
theorem claim_C8_zero_pool (tiers : List TierEntity) (s : ℚ) (d : ℕ)
    (hne : tiers ≠ [])
    (hsorted : List.Chain'
      (fun a b => a.staked_up_to_percent ≤ b.staked_up_to_percent) tiers) :
    determineTierV1 s 0 tiers = tiers.headD defTier ∧
    (∀ u ∈ tiers, (tiers.headD defTier).staked_up_to_percent ≤ u.staked_up_to_percent) ∧
    calculateTierProgressV1 s 0 tiers = none ∧
    calculateTierProgressV2 s d 0 tiers = none := by
  refine ⟨?_, ?_, ?_, ?_⟩
  · unfold determineTierV1
    rw [if_pos rfl]
  · cases tiers with
    | nil => exact absurd rfl hne
    | cons t0 rest => exact chain_head_min_pct t0 rest hsorted
  · unfold calculateTierProgressV1
    rw [if_pos rfl]
  · unfold calculateTierProgressV2
    rw [if_pos rfl]

/-- Witness for C8 at `demoTiers` with stake 7. -/
theorem claim_C8_witness :
    determineTierV1 7 0 demoTiers = demoTiers.headD defTier ∧
    (∀ u ∈ demoTiers, (demoTiers.headD defTier).staked_up_to_percent ≤
      u.staked_up_to_percent) ∧
    calculateTierProgressV1 7 0 demoTiers = none ∧
    calculateTierProgressV2 7 8 0 demoTiers = none :=
  claim_C8_zero_pool demoTiers 7 8 (by simp [demoTiers])
    (by norm_num [demoTiers, List.chain'_cons])

/-- C10: the stake-requirement solver never returns a negative amount: it is
nonnegative on every input; it returns exactly 0 whenever the share already
meets the next threshold (solved amount nonpositive); and whenever the
second aggregator reports `additionalAmountNeeded = a` it reports
`totalAmountForNext = stakedValue + a` with `a ≥ 0`, so the total is at
least the current stake. -/
theorem claim_C10_nonneg_requirement :
    (∀ (s P : ℚ) (nt : TierEntity) (d : ℕ), 0 ≤ calculateAmountForNextTierV2 s P nt d) ∧
    (∀ (s P : ℚ) (nt : TierEntity) (d : ℕ),
        nt.staked_up_to_percent / 100 < 1 → nt.staked_up_to_percent / 100 * P ≤ s →
        calculateAmountForNextTierV2 s P nt d = 0) ∧
    (∀ (s : ℚ) (d : ℕ) (P : ℚ) (tiers : List TierEntity) (r : TierProgressV2) (a : ℚ),
        calculateTierProgressV2 s d P tiers = some r →
        r.additionalAmountNeeded = some a →
        0 ≤ a ∧ r.totalAmountForNext = some (s + a) ∧ s ≤ s + a) := by
  refine ⟨amountForNextTierV2_nonneg, amountForNextTierV2_zero, ?_⟩
  intro s d P tiers r a hr ha
  simp only [calculateTierProgressV2] at hr
  set cti := jsFindIndex (fun t => t.tier == (determineTierV2 s P tiers).tier)
    (sortTiers tiers) with hcti
  by_cases h0 : P = 0
  · rw [if_pos h0] at hr
    exact absurd hr (by simp)
  rw [if_neg h0] at hr
  by_cases h1 : cti = -1
  · rw [if_pos h1] at hr
    exact absurd hr (by simp)
  rw [if_neg h1] at hr
  injection hr with hr
  subst hr
  dsimp only at ha ⊢
  by_cases h2 : cti + 1 < ((sortTiers tiers).length : ℤ)
  · rw [if_pos h2] at ha ⊢
    rw [Option.map_some'] at ha
    injection ha with ha
    subst ha
    have hnn := amountForNextTierV2_nonneg s P
      ((sortTiers tiers).getD (cti + 1).toNat defTier) d
    exact ⟨hnn, by simp [Option.map_some'], by linarith⟩
  · rw [if_neg h2] at ha
    simp at ha

/-- Witness for C10: the aggregator at stake 3, pool 100, `demoTiers`. -/
theorem claim_C10_witness :
    0 ≤ calculateAmountForNextTierV2 0 1000 tierHalfPercent 8 ∧
    calculateAmountForNextTierV2 6 100 (demoTiers.getD 1 defTier) 8 = 0 := by
  constructor
  · exact claim_C10_nonneg_requirement.1 0 1000 tierHalfPercent 8
  · exact claim_C10_nonneg_requirement.2.1 6 100 (demoTiers.getD 1 defTier) 8
      (by norm_num [demoTiers, defTier]) (by norm_num [demoTiers, defTier])

theorem pct_nonneg_getD (tiers : List TierEntity)
    (hpct : ∀ u ∈ tiers, 0 ≤ u.staked_up_to_percent) (n : ℕ) :
    0 ≤ ((sortTiers tiers).getD n defTier).staked_up_to_percent := by
  by_cases h : n < (sortTiers tiers).length
  · rw [List.getD_eq_get _ _ h]
    exact hpct _ ((mem_sortTiers _).mp (List.get_mem _ _ _))
  · rw [List.getD_eq_default _ _ (le_of_not_lt h)]
    norm_num [defTier]

/-- C1 (corrected): the stake-requirement solver does not return the
spec formula `(t*pool - stake) / ((1-feeRate) - t)`; it returns the ceiling
at `d` decimals of `w`, the code value obtained by solving the *no-fee*
dilution equation `(stake+X)/(pool+X) = t`, grossing up by `1/(1-feeRate)`
and adding a 1% buffer.  The rounding claim survives: the result is the
least multiple of `10^-d` that is ≥ `w` — rounded up, never down. -/
theorem claim_C1_amended (s P : ℚ) (nt : TierEntity) (d : ℕ) (w : ℚ)
    (ht : nt.staked_up_to_percent / 100 ≠ 1)
    (hw : w = (if (nt.staked_up_to_percent / 100 * P - s) /
                  (1 - nt.staked_up_to_percent / 100) > 0
               then ((nt.staked_up_to_percent / 100 * P - s) /
                  (1 - nt.staked_up_to_percent / 100)) / (1 - FEE_RATE)
               else 0) * (101 / 100)) :
    calculateAmountForNextTierV2 s P nt d = (⌈w * 10 ^ d⌉ : ℚ) / 10 ^ d ∧
    w ≤ calculateAmountForNextTierV2 s P nt d ∧
    (∃ z : ℤ, calculateAmountForNextTierV2 s P nt d = (z : ℚ) / 10 ^ d) ∧
    (∀ y : ℚ, (∃ z : ℤ, y = (z : ℚ) / 10 ^ d) → w ≤ y →
      calculateAmountForNextTierV2 s P nt d ≤ y) := by
  have hm : (0 : ℚ) < 10 ^ d := by positivity
  have heq : calculateAmountForNextTierV2 s P nt d = (⌈w * 10 ^ d⌉ : ℚ) / 10 ^ d := by
    subst hw
    rfl
  refine ⟨heq, ?_, ⟨⌈w * 10 ^ d⌉, heq⟩, ?_⟩
  · rw [heq]
    exact ceil_div_ge hm
  · intro y hy hwy
    obtain ⟨z, hz⟩ := hy
    rw [heq]
    exact ceil_div_least hm z hz hwy

/-- Counterexample for C1: at stake 0, pool 1000, next threshold 0.5% and 8
decimals, the code returns 5.09064884 while the spec formula, rounded up to
8 decimals, is 5.04032259. -/
theorem claim_C1_counterexample :
    calculateAmountForNextTierV2 0 1000 tierHalfPercent 8 = 127266221 / 25000000 ∧
    specAmountForNextTier 0 1000 (tierHalfPercent.staked_up_to_percent / 100) FEE_RATE 8 =
      504032259 / 100000000 ∧
    calculateAmountForNextTierV2 0 1000 tierHalfPercent 8 ≠
      specAmountForNextTier 0 1000 (tierHalfPercent.staked_up_to_percent / 100) FEE_RATE 8 := by
  have h1 : calculateAmountForNextTierV2 0 1000 tierHalfPercent 8 = 127266221 / 25000000 := by
    norm_num [calculateAmountForNextTierV2, tierHalfPercent, FEE_RATE, ceil_eq_neg_floor_neg]
  have h2 : specAmountForNextTier 0 1000 (tierHalfPercent.staked_up_to_percent / 100)
      FEE_RATE 8 = 504032259 / 100000000 := by
    norm_num [specAmountForNextTier, tierHalfPercent, FEE_RATE, ceil_eq_neg_floor_neg]
  refine ⟨h1, h2, ?_⟩
  rw [h1, h2]
  norm_num

/-- Witness for the C1 theorem at stake 0, pool 1000, next threshold 0.5%,
8 decimals; there `w = 1010000/198403`. -/
theorem claim_C1_witness :
    calculateAmountForNextTierV2 0 1000 tierHalfPercent 8 =
      (⌈(1010000 / 198403 : ℚ) * 10 ^ 8⌉ : ℚ) / 10 ^ 8 ∧
    (1010000 / 198403 : ℚ) ≤ calculateAmountForNextTierV2 0 1000 tierHalfPercent 8 ∧
    (∃ z : ℤ, calculateAmountForNextTierV2 0 1000 tierHalfPercent 8 = (z : ℚ) / 10 ^ 8) ∧
    (∀ y : ℚ, (∃ z : ℤ, y = (z : ℚ) / 10 ^ 8) → (1010000 / 198403 : ℚ) ≤ y →
      calculateAmountForNextTierV2 0 1000 tierHalfPercent 8 ≤ y) :=
  claim_C1_amended 0 1000 tierHalfPercent 8 (1010000 / 198403)
    (by norm_num [tierHalfPercent]) (by norm_num [tierHalfPercent, FEE_RATE])

/-- C2 (corrected): the unstake safety solver does not floor the spec
formula `(stake - b*pool)/(1-b)`; outside the lowest tier it floors (at the
stake string's decimal count, never rounding up) the value
`0.95 * max 0 (stake - b*pool/(1-b))` — a different solution with a further
5% safety margin; at the lowest tier (or an unmatched tier name) it returns
`max 0 (stake - 1e-8)`; on a zero pool or zero stake it returns 0.  The
clamp survives: the result always lies in `[0, stake]`. -/
theorem claim_C2_amended (s : ℚ) (d : ℕ) (P : ℚ) (tiers : List TierEntity) (ct : TierEntity)
    (hs : 0 ≤ s) (hP : 0 ≤ P)
    (hpct : ∀ u ∈ tiers, 0 ≤ u.staked_up_to_percent) :
    (0 ≤ calculateSafeUnstakeAmountV2 s d P tiers ct ∧
      calculateSafeUnstakeAmountV2 s d P tiers ct ≤ s) ∧
    (P ≠ 0 → s ≠ 0 →
      jsFindIndex (fun t => t.tier == ct.tier) (sortTiers tiers) ≤ 0 →
      calculateSafeUnstakeAmountV2 s d P tiers ct = max 0 (s - 1 / 100000000)) ∧
    (∀ b : ℚ, P ≠ 0 → s ≠ 0 →
      0 < jsFindIndex (fun t => t.tier == ct.tier) (sortTiers tiers) →
      b = ((sortTiers tiers).getD
        ((jsFindIndex (fun t => t.tier == ct.tier) (sortTiers tiers)).toNat - 1)
        defTier).staked_up_to_percent / 100 →
      b < 1 →
      calculateSafeUnstakeAmountV2 s d P tiers ct =
        (⌊(max 0 (s - b * P / (1 - b)) * (95 / 100)) * 10 ^ d⌋ : ℚ) / 10 ^ d ∧
      calculateSafeUnstakeAmountV2 s d P tiers ct ≤
        max 0 (s - b * P / (1 - b)) * (95 / 100)) := by
  have hm : (0 : ℚ) < 10 ^ d := by positivity
  refine ⟨?_, ?_, ?_⟩
  · simp only [calculateSafeUnstakeAmountV2]
    split_ifs with h0 h1 h2
    · exact ⟨le_refl 0, hs⟩
    · refine ⟨le_max_left _ _, max_le hs (by linarith)⟩
    · set b := ((sortTiers tiers).getD
        ((jsFindIndex (fun t => t.tier == ct.tier) (sortTiers tiers)).toNat - 1)
        defTier).staked_up_to_percent / 100 with hbdef
      have hb0 : 0 ≤ b := by
        rw [hbdef]
        have := pct_nonneg_getD tiers hpct
          ((jsFindIndex (fun t => t.tier == ct.tier) (sortTiers tiers)).toNat - 1)
        positivity
      have hmin : 0 ≤ b * P / (1 - b) := by
        apply div_nonneg (mul_nonneg hb0 hP)
        linarith
      have hup : max 0 (s - b * P / (1 - b)) * (95 / 100) ≤ s := by
        have h3 : max 0 (s - b * P / (1 - b)) ≤ s := max_le hs (by linarith)
        nlinarith [le_max_left (0 : ℚ) (s - b * P / (1 - b))]
      constructor
      · exact floor_div_nonneg hm
          (mul_nonneg (le_max_left _ _) (by norm_num))
      · exact le_trans (floor_div_le hm) hup
    · constructor
      · apply floor_div_nonneg hm
        apply mul_nonneg _ (by norm_num)
        simp
      · refine le_trans (floor_div_le hm) ?_
        have : max 0 (s - s) * (95 / 100 : ℚ) = 0 := by
          simp
        rw [this]
        exact hs
  · intro hP0 hs0 hlow
    simp only [calculateSafeUnstakeAmountV2]
    rw [if_neg (by simp [hP0, hs0]), if_pos hlow]
  · intro b hP0 hs0 hpos hb hblt
    have hble : ¬jsFindIndex (fun t => t.tier == ct.tier) (sortTiers tiers) ≤ 0 :=
      not_le.mpr hpos
    constructor
    · simp only [calculateSafeUnstakeAmountV2]
      rw [if_neg (by simp [hP0, hs0]), if_neg hble, ← hb, if_pos hblt]
    · have heq : calculateSafeUnstakeAmountV2 s d P tiers ct =
          (⌊(max 0 (s - b * P / (1 - b)) * (95 / 100)) * 10 ^ d⌋ : ℚ) / 10 ^ d := by
        simp only [calculateSafeUnstakeAmountV2]
        rw [if_neg (by simp [hP0, hs0]), if_neg hble, ← hb, if_pos hblt]
      rw [heq]
      exact floor_div_le hm

/-- Counterexample for C2: stake 6, pool 100, tiers 1%/5%/100%, current tier
the 5% one, 8 decimals.  The code returns 4.74040404; the spec formula
`(s - b*P)/(1-b)` floored and clamped gives 5.05050505. -/
theorem claim_C2_counterexample :
    calculateSafeUnstakeAmountV2 6 8 100 demoTiers (demoTiers.getD 1 defTier) =
      118510101 / 25000000 ∧
    specSafeUnstakeAmount 6 100 ((demoTiers.getD 0 defTier).staked_up_to_percent / 100) 8 =
      101010101 / 20000000 ∧
    calculateSafeUnstakeAmountV2 6 8 100 demoTiers (demoTiers.getD 1 defTier) ≠
      specSafeUnstakeAmount 6 100 ((demoTiers.getD 0 defTier).staked_up_to_percent / 100) 8 := by
  have h1 : calculateSafeUnstakeAmountV2 6 8 100 demoTiers (demoTiers.getD 1 defTier) =
      118510101 / 25000000 := by
    simp [calculateSafeUnstakeAmountV2, sortTiers, insertTier, jsFindIndex,
      List.findIdx_cons, demoTiers, defTier]
    norm_num
  have h2 : specSafeUnstakeAmount 6 100
      ((demoTiers.getD 0 defTier).staked_up_to_percent / 100) 8 = 101010101 / 20000000 := by
    norm_num [specSafeUnstakeAmount, demoTiers, defTier]
  refine ⟨h1, h2, ?_⟩
  rw [h1, h2]
  norm_num

/-- Witness for the C2 theorem at the counterexample instance. -/
theorem claim_C2_witness :
    (0 ≤ calculateSafeUnstakeAmountV2 6 8 100 demoTiers (demoTiers.getD 1 defTier) ∧
      calculateSafeUnstakeAmountV2 6 8 100 demoTiers (demoTiers.getD 1 defTier) ≤ 6) ∧
    (100 ≠ (0 : ℚ) → 6 ≠ (0 : ℚ) →
      jsFindIndex (fun t => t.tier == (demoTiers.getD 1 defTier).tier)
        (sortTiers demoTiers) ≤ 0 →
      calculateSafeUnstakeAmountV2 6 8 100 demoTiers (demoTiers.getD 1 defTier) =
        max 0 (6 - 1 / 100000000)) ∧
    (∀ b : ℚ, 100 ≠ (0 : ℚ) → 6 ≠ (0 : ℚ) →
      0 < jsFindIndex (fun t => t.tier == (demoTiers.getD 1 defTier).tier)
        (sortTiers demoTiers) →
      b = ((sortTiers demoTiers).getD
        ((jsFindIndex (fun t => t.tier == (demoTiers.getD 1 defTier).tier)
          (sortTiers demoTiers)).toNat - 1) defTier).staked_up_to_percent / 100 →
      b < 1 →
      calculateSafeUnstakeAmountV2 6 8 100 demoTiers (demoTiers.getD 1 defTier) =
        (⌊(max 0 (6 - b * 100 / (1 - b)) * (95 / 100)) * 10 ^ 8⌋ : ℚ) / 10 ^ 8 ∧
      calculateSafeUnstakeAmountV2 6 8 100 demoTiers (demoTiers.getD 1 defTier) ≤
        max 0 (6 - b * 100 / (1 - b)) * (95 / 100)) :=
  claim_C2_amended 6 8 100 demoTiers (demoTiers.getD 1 defTier) (by norm_num) (by norm_num)
    (by
      intro u hu
      simp [demoTiers] at hu
      rcases hu with rfl | rfl | rfl <;> norm_num)

/-- C4 (corrected): when the fee-adjusted target is unreachable
(`t ≥ 1 - feeRate`, `t ≠ 1`), the solver does not report any explicit
"no solution" result: it returns its usual finite, nonnegative formula
value, although no finite gross deposit `X ≥ 0` can lift the share to `t`
(second conjunct) — it never returns a negative amount and never throws. -/
theorem claim_C4_amended (s P : ℚ) (nt : TierEntity) (d : ℕ)
    (ht1 : 1 - FEE_RATE ≤ nt.staked_up_to_percent / 100)
    (ht2 : nt.staked_up_to_percent / 100 ≠ 1)
    (hsP : s < nt.staked_up_to_percent / 100 * P) :
    0 ≤ calculateAmountForNextTierV2 s P nt d ∧
    ∀ X : ℚ, 0 ≤ X → 0 < P + X →
      (s + X * (1 - FEE_RATE)) / (P + X) < nt.staked_up_to_percent / 100 := by
  refine ⟨amountForNextTierV2_nonneg s P nt d, ?_⟩
  intro X hX hPX
  rw [div_lt_iff hPX]
  have hXf : 0 ≤ X * (nt.staked_up_to_percent / 100 - (1 - FEE_RATE)) :=
    mul_nonneg hX (by linarith)
  nlinarith

/-- Counterexample for C4: next threshold 99.8% ≥ 99.7% = 1 - feeRate, stake
0, pool 1000: the solver returns the plain finite number 505506.51955868
(no unreachable flag), although even depositing that amount leaves the
share below 99.8%. -/
theorem claim_C4_counterexample :
    1 - FEE_RATE ≤ tier998.staked_up_to_percent / 100 ∧
    calculateAmountForNextTierV2 0 1000 tier998 8 = 12637662988967 / 25000000 ∧
    (0 : ℚ) ≤ 12637662988967 / 25000000 ∧
    (0 + (12637662988967 / 25000000) * (1 - FEE_RATE)) /
        (1000 + 12637662988967 / 25000000) <
      tier998.staked_up_to_percent / 100 := by
  refine ⟨by norm_num [FEE_RATE, tier998], ?_, by norm_num, by norm_num [FEE_RATE, tier998]⟩
  norm_num [calculateAmountForNextTierV2, tier998, FEE_RATE, ceil_eq_neg_floor_neg]

/-- Witness for the C4 theorem at stake 0, pool 1000, threshold 99.8%. -/
theorem claim_C4_witness :
    0 ≤ calculateAmountForNextTierV2 0 1000 tier998 8 ∧
    ∀ X : ℚ, 0 ≤ X → 0 < 1000 + X →
      ((0 : ℚ) + X * (1 - FEE_RATE)) / (1000 + X) < tier998.staked_up_to_percent / 100 :=
  claim_C4_amended 0 1000 tier998 8 (by norm_num [FEE_RATE, tier998])
    (by norm_num [tier998]) (by norm_num [tier998])

theorem getD_map_pct (l : List TierEntity) (k : ℕ) (hk : k < l.length) :
    (l.map (·.staked_up_to_percent)).getD k 0 =
      (l.getD k defTier).staked_up_to_percent := by
  rw [List.getD_eq_get _ _ (by simpa using hk), List.getD_eq_get _ _ hk]
  simp

theorem getD_lt_of_sorted {l : List ℚ} (hl : List.Chain' (· < ·) l)
    {i j : ℕ} (hij : i < j) (hj : j < l.length) : l.getD i 0 < l.getD j 0 := by
  have hpw : List.Pairwise (· < ·) l := List.chain'_iff_pairwise.mp hl
  have hi : i < l.length := lt_trans hij hj
  rw [List.getD_eq_get _ _ hi, List.getD_eq_get _ _ hj]
  exact List.pairwise_iff_get.mp hpw ⟨i, hi⟩ ⟨j, hj⟩ hij

theorem rankV1_at_boundary (l : List ℚ) (hl : List.Chain' (· < ·) l) (k : ℕ)
    (hk : k < l.length) : rankV1 (l.getD k 0) l = k := by
  by_cases hlast : k + 1 < l.length
  · have hf : l.findIdx (fun t => decide (l.getD k 0 < t)) = k + 1 := by
      apply findIdx_eq_of _ 0 _ _ hlast
      · intro i hi
        apply decide_eq_false
        apply not_lt.mpr
        rcases Nat.lt_succ_iff_lt_or_eq.mp hi with hik | rfl
        · exact le_of_lt (getD_lt_of_sorted hl hik hk)
        · exact le_refl _
      · exact decide_eq_true (getD_lt_of_sorted hl (Nat.lt_succ_self k) hlast)
    unfold rankV1
    rw [hf, if_neg (Nat.ne_of_lt hlast)]
    omega
  · have hke : k + 1 = l.length := by omega
    have hf : l.findIdx (fun t => decide (l.getD k 0 < t)) = l.length := by
      apply findIdx_eq_length_of
      intro a ha
      obtain ⟨i, hieq⟩ := List.mem_iff_get.mp ha
      apply decide_eq_false
      apply not_lt.mpr
      rw [← hieq, ← List.getD_eq_get l 0 i.isLt]
      rcases Nat.lt_succ_iff_lt_or_eq.mp (show i.val < k + 1 by omega) with hik | hik
      · exact le_of_lt (getD_lt_of_sorted hl hik hk)
      · rw [hik]
    unfold rankV1
    rw [hf, if_pos rfl]
    omega

theorem rankV2_at_boundary (l : List ℚ) (hl : List.Chain' (· < ·) l) (k : ℕ)
    (hk : k < l.length) : rankV2 (l.getD k 0) l = k - 1 := by
  have hf : l.findIdx (fun t => decide (l.getD k 0 ≤ t)) = k := by
    apply findIdx_eq_of _ 0 _ _ hk
    · intro i hi
      exact decide_eq_false (not_le.mpr (getD_lt_of_sorted hl hi hk))
    · exact decide_eq_true (le_refl _)
  unfold rankV2
  rw [hf, if_neg (Nat.ne_of_lt hk)]

/-- C3 (corrected): when the share exactly equals the threshold of the tier
at position `k` of the strictly ascending tier list, the first
`determineTier` revision returns that very tier (the claimed
inclusive-upper-bound behaviour), but the second revision returns the tier
at position `k - 1` — one tier lower — whenever `k > 0`. -/
theorem claim_C3_amended (tiers : List TierEntity) (s P : ℚ) (k : ℕ)
    (hk : k < tiers.length)
    (hsorted : List.Chain'
      (fun a b => a.staked_up_to_percent < b.staked_up_to_percent) tiers)
    (hP : 0 < P)
    (hshare : s / P * 100 = (tiers.getD k defTier).staked_up_to_percent)
    (hle : (tiers.getD k defTier).staked_up_to_percent ≤ 100) :
    determineTierV1 s P tiers = tiers.getD k defTier ∧
    determineTierV2 s P tiers = tiers.getD (k - 1) defTier := by
  have hsort : sortTiers tiers = tiers :=
    sortTiers_eq_self tiers (hsorted.imp (fun _ _ h => le_of_lt h))
  have hlq : List.Chain' (· < ·) (tiers.map (·.staked_up_to_percent)) :=
    (List.chain'_map _).mpr hsorted
  have hkl : k < (tiers.map (·.staked_up_to_percent)).length := by simpa using hk
  have hlk : (tiers.map (·.staked_up_to_percent)).getD k 0 =
      (tiers.getD k defTier).staked_up_to_percent := getD_map_pct tiers k hk
  have hshare1 : min (s / P * 100) 100 =
      (tiers.map (·.staked_up_to_percent)).getD k 0 := by
    rw [hlk, hshare]
    exact min_eq_left hle
  have hshare2 : calculateStakedPercent s P =
      (tiers.map (·.staked_up_to_percent)).getD k 0 := by
    unfold calculateStakedPercent
    rw [if_neg hP.ne', hlk, hshare]
  constructor
  · unfold determineTierV1 determineTierIdxV1
    rw [if_neg hP.ne', hsort, hshare1, rankV1_at_boundary _ hlq k hkl]
  · unfold determineTierV2 determineTierIdxV2
    rw [hsort, hshare2, rankV2_at_boundary _ hlq k hkl]

/-- Counterexample for C3: share 5% sits exactly on the 5% threshold of the
middle tier of `demoTiers`, yet the second `determineTier` returns the 1%
tier below it, not the 5% tier the claim names. -/
theorem claim_C3_counterexample :
    (5 : ℚ) / 100 * 100 = (demoTiers.getD 1 defTier).staked_up_to_percent ∧
    determineTierV2 5 100 demoTiers = demoTiers.getD 0 defTier ∧
    determineTierV2 5 100 demoTiers ≠ demoTiers.getD 1 defTier := by
  have h1 : determineTierV2 5 100 demoTiers = demoTiers.getD 0 defTier := by
    norm_num [determineTierV2, determineTierIdxV2, calculateStakedPercent, rankV2,
      sortTiers, insertTier, demoTiers, defTier, List.findIdx_cons]
  refine ⟨by norm_num [demoTiers, defTier], h1, ?_⟩
  rw [h1]
  norm_num [demoTiers, defTier]

/-- Witness for the C3 theorem at `demoTiers`, stake 5, pool 100, `k = 1`. -/
theorem claim_C3_witness :
    determineTierV1 5 100 demoTiers = demoTiers.getD 1 defTier ∧
    determineTierV2 5 100 demoTiers = demoTiers.getD (1 - 1) defTier :=
  claim_C3_amended demoTiers 5 100 1 (by norm_num [demoTiers])
    (by norm_num [demoTiers, List.chain'_cons]) (by norm_num)
    (by norm_num [demoTiers, defTier]) (by norm_num [demoTiers, defTier])

theorem progressTowardV1_mem (share ct : ℚ) (ntOpt : Option ℚ) :
    0 ≤ progressTowardV1 share ct ntOpt ∧ progressTowardV1 share ct ntOpt ≤ 100 := by
  unfold progressTowardV1
  exact ⟨le_min (le_max_left _ _) (by norm_num), min_le_right _ _⟩

theorem progressTowardV1_none (share ct : ℚ) : progressTowardV1 share ct none = 100 := by
  unfold progressTowardV1
  norm_num

theorem progressTowardV2_mem (share ct : ℚ) (ntOpt : Option ℚ) :
    0 ≤ progressTowardV2 share ct ntOpt ∧ progressTowardV2 share ct ntOpt ≤ 100 := by
  unfold progressTowardV2
  cases ntOpt with
  | none => norm_num
  | some nt => exact ⟨le_min (by norm_num) (le_max_left _ _), min_le_left _ _⟩

theorem progressTowardV2_degenerate (share ct nt : ℚ) (h : nt ≤ ct) :
    progressTowardV2 share ct (some nt) = 100 := by
  unfold progressTowardV2
  dsimp only
  rw [if_neg (by simp only [gt_iff_lt, not_lt]; linarith)]
  norm_num

theorem progressTowardV2_formula (share ct nt : ℚ) (h : ct < nt) :
    progressTowardV2 share ct (some nt) =
      min 100 (max 0 ((share - ct) / (nt - ct) * 100)) := by
  unfold progressTowardV2
  dsimp only
  rw [if_pos (by simp only [gt_iff_lt]; linarith)]

theorem tierProgressV1_fields (s P : ℚ) (tiers : List TierEntity) (r : TierProgressV1)
    (h : calculateTierProgressV1 s P tiers = some r) :
    r.progress = progressTowardV1 (min (s / P * 100) 100)
      r.currentTier.staked_up_to_percent (r.nextTier.map (·.staked_up_to_percent)) := by
  simp only [calculateTierProgressV1] at h
  by_cases h0 : P = 0
  · rw [if_pos h0] at h
    exact absurd h (by simp)
  · rw [if_neg h0] at h
    injection h with h
    subst h
    rfl

theorem tierProgressV2_fields (s : ℚ) (d : ℕ) (P : ℚ) (tiers : List TierEntity)
    (r : TierProgressV2) (h : calculateTierProgressV2 s d P tiers = some r) :
    r.progress = progressTowardV2 (s / P * 100)
      r.currentTier.staked_up_to_percent (r.nextTier.map (·.staked_up_to_percent)) := by
  simp only [calculateTierProgressV2] at h
  by_cases h0 : P = 0
  · rw [if_pos h0] at h
    exact absurd h (by simp)
  rw [if_neg h0] at h
  by_cases h1 : jsFindIndex (fun t => t.tier == (determineTierV2 s P tiers).tier)
      (sortTiers tiers) = -1
  · rw [if_pos h1] at h
    exact absurd h (by simp)
  · rw [if_neg h1] at h
    injection h with h
    subst h
    rfl

/-- C5 (corrected): both aggregators keep progress within `[0, 100]` and
report 100 when no next tier exists; the second aggregator also reports 100
in the degenerate equal-thresholds case and the clamped linear formula
otherwise; but the first aggregator does not return 100 in its reachable
degenerate case — it clamps the raw value to 0 (see the counterexample). -/
theorem claim_C5_progress_range :
    (∀ (s P : ℚ) (tiers : List TierEntity) (r : TierProgressV1),
      calculateTierProgressV1 s P tiers = some r →
      0 ≤ r.progress ∧ r.progress ≤ 100 ∧
      (r.nextTier = none → r.progress = 100)) ∧
    (∀ (s : ℚ) (d : ℕ) (P : ℚ) (tiers : List TierEntity) (r : TierProgressV2),
      calculateTierProgressV2 s d P tiers = some r →
      0 ≤ r.progress ∧ r.progress ≤ 100 ∧
      (r.nextTier = none → r.progress = 100) ∧
      (∀ nt, r.nextTier = some nt →
        nt.staked_up_to_percent ≤ r.currentTier.staked_up_to_percent →
        r.progress = 100) ∧
      (∀ nt, r.nextTier = some nt →
        r.currentTier.staked_up_to_percent < nt.staked_up_to_percent →
        r.progress = min 100 (max 0 ((s / P * 100 - r.currentTier.staked_up_to_percent) /
          (nt.staked_up_to_percent - r.currentTier.staked_up_to_percent) * 100)))) := by
  constructor
  · intro s P tiers r h
    have hp := tierProgressV1_fields s P tiers r h
    refine ⟨?_, ?_, ?_⟩
    · rw [hp]
      exact (progressTowardV1_mem _ _ _).1
    · rw [hp]
      exact (progressTowardV1_mem _ _ _).2
    · intro hn
      rw [hp, hn]
      exact progressTowardV1_none _ _
  · intro s d P tiers r h
    have hp := tierProgressV2_fields s d P tiers r h
    refine ⟨?_, ?_, ?_, ?_, ?_⟩
    · rw [hp]
      exact (progressTowardV2_mem _ _ _).1
    · rw [hp]
      exact (progressTowardV2_mem _ _ _).2
    · intro hn
      rw [hp, hn]
      rfl
    · intro nt hnt hle
      rw [hp, hnt]
      exact progressTowardV2_degenerate _ _ _ hle
    · intro nt hnt hlt
      rw [hp, hnt]
      exact progressTowardV2_formula _ _ _ hlt

/-- Counterexample for C5: with duplicated thresholds (5%, 5%, 100%), stake
1, pool 100, the first aggregator lands in the degenerate equal-thresholds
configuration (current and next thresholds both 5) and reports progress 0,
not the claimed 100. -/
theorem claim_C5_counterexample :
    (calculateTierProgressV1 1 100 dupTiers).map
      (fun r => (r.progress, r.currentTier.staked_up_to_percent,
        r.nextTier.map (·.staked_up_to_percent))) = some (0, 5, some 5) ∧
    (0 : ℚ) ≠ 100 := by
  constructor
  · simp [calculateTierProgressV1, amountsV1, progressTowardV1, determineTierV1,
      determineTierIdxV1, rankV1, sortTiers, insertTier, jsFindIndex, List.findIdx_cons,
      dupTiers, defTier, applyWaxPrecision, PRECISION, FEE_RATE]
  · norm_num

/-- Witness for the C5 theorem: both aggregators at stake 1, pool 100,
`demoTiers`, whose results are `recV1demo` and `recV2demo`. -/
theorem claim_C5_witness :
    (0 ≤ recV1demo.progress ∧ recV1demo.progress ≤ 100 ∧
      (recV1demo.nextTier = none → recV1demo.progress = 100)) ∧
    (0 ≤ recV2demo.progress ∧ recV2demo.progress ≤ 100 ∧
      (recV2demo.nextTier = none → recV2demo.progress = 100) ∧
      (∀ nt, recV2demo.nextTier = some nt →
        nt.staked_up_to_percent ≤ recV2demo.currentTier.staked_up_to_percent →
        recV2demo.progress = 100) ∧
      (∀ nt, recV2demo.nextTier = some nt →
        recV2demo.currentTier.staked_up_to_percent < nt.staked_up_to_percent →
        recV2demo.progress = min 100 (max 0
          (((1 : ℚ) / 100 * 100 - recV2demo.currentTier.staked_up_to_percent) /
          (nt.staked_up_to_percent - recV2demo.currentTier.staked_up_to_percent) * 100)))) := by
  constructor
  · apply claim_C5_progress_range.1 1 100 demoTiers recV1demo
    simp [calculateTierProgressV1, amountsV1, progressTowardV1, determineTierV1,
      determineTierIdxV1, rankV1, sortTiers, insertTier, jsFindIndex, List.findIdx_cons,
      demoTiers, defTier, applyWaxPrecision, PRECISION, FEE_RATE, recV1demo]
    norm_num
  · apply claim_C5_progress_range.2 1 8 100 demoTiers recV2demo
    simp [calculateTierProgressV2, progressTowardV2, determineTierV2, determineTierIdxV2,
      calculateStakedPercent, rankV2, sortTiers, insertTier, jsFindIndex, List.findIdx_cons,
      demoTiers, defTier, calculateAmountForNextTierV2, calculateSafeUnstakeAmountV2,
      FEE_RATE, recV2demo, ceil_eq_neg_floor_neg]
    norm_num

/-- C6 (code bug): at stake 6, pool 100, tiers 1%/5%/100%, the resolved tier
is the 5% one (index 1); the safe-unstake amount the code computes is
4.74040404; simulating that withdrawal and re-resolving yields the 1% tier
(index 0) — the round trip does not preserve the tier index, contradicting
the function's stated purpose of never dropping a tier. -/
theorem claim_C6_round_trip_fails :
    determineTierV2 6 100 demoTiers = demoTiers.getD 1 defTier ∧
    calculateSafeUnstakeAmountV2 6 8 100 demoTiers (demoTiers.getD 1 defTier) =
      118510101 / 25000000 ∧
    determineTierV2 (6 - 118510101 / 25000000) (100 - 118510101 / 25000000) demoTiers =
      demoTiers.getD 0 defTier ∧
    demoTiers.getD 0 defTier ≠ demoTiers.getD 1 defTier := by
  refine ⟨?_, ?_, ?_, ?_⟩
  · norm_num [determineTierV2, determineTierIdxV2, calculateStakedPercent, rankV2,
      sortTiers, insertTier, demoTiers, defTier, List.findIdx_cons]
  · simp [calculateSafeUnstakeAmountV2, sortTiers, insertTier, jsFindIndex,
      List.findIdx_cons, demoTiers, defTier]
    norm_num
  · norm_num [determineTierV2, determineTierIdxV2, calculateStakedPercent, rankV2,
      sortTiers, insertTier, demoTiers, defTier, List.findIdx_cons]
  · norm_num [demoTiers, defTier]

/-- C9 (corrected): an undefined or empty input yields the full default
record; any other input whose first token does not parse as a float never
throws and yields amount 0 — but keeps the input's own second token as the
symbol (default `"WAX"` only when absent) and derives the decimal count
from the dot position of the first token (default 8 only without a dot). -/
theorem claim_C9_lenient :
    parseTokenString none = defaultParsed ∧
    parseTokenString (some "") = defaultParsed ∧
    (∀ s : String, s ≠ "" → parseFloatJS (jsFirstToken s) = JSNum.nan →
      parseTokenString (some s) =
        { amount := JSNum.num 0, symbol := jsSymbolToken s,
          decimals := jsDecimalsOf (jsFirstToken s) }) := by
  refine ⟨rfl, rfl, ?_⟩
  intro s hs hnan
  simp only [parseTokenString, if_neg hs, hnan, jsOrZero]

/-- Counterexample for C9: the malformed input `"foo.ab BAR"` does not yield
the default record: the amount is 0 but the symbol stays `"BAR"` and the
decimal count becomes 2 (the digits after the dot in `"foo.ab"`). -/
theorem claim_C9_counterexample :
    parseTokenString (some "foo.ab BAR") =
      { amount := JSNum.num 0, symbol := "BAR", decimals := 2 } ∧
    ({ amount := JSNum.num 0, symbol := "BAR", decimals := 2 } : ParsedToken) ≠
      defaultParsed := by
  constructor
  · decide
  · decide

/-- Witness for the C9 theorem at the malformed input `"foo BAR"`. -/
theorem claim_C9_witness :
    parseTokenString (some "foo BAR") =
      { amount := JSNum.num 0, symbol := jsSymbolToken "foo BAR",
        decimals := jsDecimalsOf (jsFirstToken "foo BAR") } :=
  claim_C9_lenient.2.2 "foo BAR" (by decide) (by decide)

end Wagyu
